import Mathlib

/-!
Shallow embedding of `convex-signals-client` (`src/client.ts`, the full variant in
`src/unnamed/part_003`, with the `part_001`/`part_002` variants where a claim cites them).

The client wraps a `BaseConvexClient` backend collaborator. `querySignal` speculatively opens a
backend subscription, dedups by the returned query token against the `#signals` map, and
otherwise builds a cell holding a reactive signal (`sig`), an `[IsLoaded]` flag, a subscriber
`counter`, and closures `subscribe`/`refresh`/`destroy`/`sync` over the captured
`queryToken`/`unsubscribe`/`name`/`args`. The `#onTransition` callback sets `[IsLoaded]` and
refreshes each updated cell found in the map.

Machine-level conventions of the embedding:
* a query token is the deterministic identity `(name, serialized args)`, modelled as a pair of
  naturals (the backend guarantees equal pairs yield equal tokens);
* JS object identity for cells is modelled by allocation of cell ids from `nextCellId`; the JS
  heap (objects stay alive while a handle is retained, even after removal from the `#signals`
  map) is the total map `cells : Nat → Option Cell`;
* the JS `counter` variable is an `Int`, since the code decrements it without a lower guard;
* the reactive-signal collaborator is external (spec §6): `subscribe` runs its callback once
  immediately with the current value (both shipped factories use `effect`, which runs eagerly),
  writes notify all current subscribers, and its returned disposer is idempotent. The listener
  list stored in a cell holds the sig listeners registered through the cell's counting
  `subscribe`; `sync`'s raw sig listener and timer are modelled by the separate `SyncState`
  machine, since `sync` performs no writes to the cell or the client.
-/

namespace ConvexSignals

/-- A query result value (`FunctionReturnType`), abstracted to naturals. -/
abbrev Value := Nat

/-- A `QueryToken`: deterministic identity of `(query name, serialized args)`. -/
abbrev Token := Nat × Nat

/-- The `BaseConvexClient` backend collaborator, reduced to the capabilities the client uses:
`subscribe` (opens a fresh backend subscription and returns its token), `unsubscribe`
capabilities (close one subscription by id), and the `localQueryResult` store. -/
structure Backend where
  nextSubId : Nat
  openSubs : List (Nat × Token)
  localResults : Token → Option Value

/-- `BaseConvexClient.subscribe(name, args)`: opens a new backend subscription and returns
`{ queryToken, unsubscribe }`; the token is the deterministic identity of the pair, the
unsubscribe capability is identified by the fresh subscription id. -/
def Backend.subscribeQuery (b : Backend) (t : Token) : Backend × Nat :=
  ({ b with nextSubId := b.nextSubId + 1, openSubs := (b.nextSubId, t) :: b.openSubs },
   b.nextSubId)

/-- Invoking a backend unsubscribe capability: closes the subscription with that id
(idempotent once closed). -/
def Backend.closeSub (b : Backend) (sid : Nat) : Backend :=
  { b with openSubs := b.openSubs.filter (fun p => p.1 ≠ sid) }

/-- One `ConvexSignal` cell as built by `querySignal`: the captured token, the backend
unsubscribe capability (`subId`) captured by its closures, the `[IsLoaded]` field, the wrapped
signal's value (`sig.value`, `none` before the first write), the `counter` of live external
subscriptions, and the sig listeners registered through the cell's `subscribe` (with an
allocator for listener identities). -/
structure Cell where
  token : Token
  subId : Nat
  isLoadedFlag : Bool
  sigValue : Option Value
  counter : Int
  listeners : List Nat
  nextListenerId : Nat
deriving DecidableEq

/-- Whole-client state: the backend, the JS heap of cells ever created, and the `#signals`
registry from token to cell. -/
structure ClientState where
  backend : Backend
  cells : Nat → Option Cell
  nextCellId : Nat
  signals : Token → Option Nat

/-- A fresh `ConvexSignalsClient` over a backend with local store `loc`. -/
def initClient (loc : Token → Option Value) : ClientState :=
  { backend := { nextSubId := 0, openSubs := [], localResults := loc },
    cells := fun _ => none,
    nextCellId := 0,
    signals := fun _ => none }

/-- Number of live backend subscriptions for a token. -/
def subsCount (st : ClientState) (t : Token) : Nat :=
  st.backend.openSubs.countP (fun p => p.2 = t)

/-- `ConvexSignalsClient.querySignal`: speculatively opens a backend subscription; if the
returned token is already in `#signals`, immediately invokes the new subscription's
`unsubscribe` and returns the existing cell; otherwise builds a fresh cell (with `[IsLoaded]`
false, empty signal, zero counter), stores it under the token, and returns it. Returns the
updated state and the id of the returned cell. -/
def querySignal (st : ClientState) (t : Token) : ClientState × Nat :=
  let b1 := (st.backend.subscribeQuery t).1
  let sid := (st.backend.subscribeQuery t).2
  match st.signals t with
  | some cid => ({ st with backend := b1.closeSub sid }, cid)
  | none =>
      let cid := st.nextCellId
      let cell : Cell :=
        { token := t, subId := sid, isLoadedFlag := false, sigValue := none,
          counter := 0, listeners := [], nextListenerId := 0 }
      ({ st with
           backend := b1,
           cells := fun k => if k = cid then some cell else st.cells k,
           nextCellId := cid + 1,
           signals := fun u => if u = t then some cid else st.signals u },
       cid)

/-- Apply `f` to the cell stored at `cid`, if any. -/
def updateCell (st : ClientState) (cid : Nat) (f : Cell → Cell) : ClientState :=
  { st with cells := fun k => if k = cid then (st.cells k).map f else st.cells k }

/-- `result.refresh`: writes `this.#client.localQueryResult(name, args)` of the cell's captured
query into `sig.value`. Total: invoking it on a destroyed cell works against whatever local
state remains and cannot throw. -/
def refreshCell (st : ClientState) (cid : Nat) : ClientState :=
  updateCell st cid (fun c => { c with sigValue := st.backend.localResults c.token })

/-- One token's handling inside `#onTransition`: if the registry holds a cell for the token,
set its `[IsLoaded]` field to true and call its `refresh`; otherwise do nothing. -/
def notifyToken (st : ClientState) (t : Token) : ClientState :=
  match st.signals t with
  | some cid => refreshCell (updateCell st cid (fun c => { c with isLoadedFlag := true })) cid
  | none => st

/-- `ConvexSignalsClient.#onTransition`: fold `notifyToken` over the batch of updated tokens. -/
def onTransition (st : ClientState) (ts : List Token) : ClientState :=
  ts.foldl notifyToken st

/-- `result.subscribe(fn)`: increments `counter` and registers `fn` on the wrapped signal;
returns the fresh listener id identifying this subscription's sig listener. -/
def subscribeCell (st : ClientState) (cid : Nat) : ClientState × Nat :=
  match st.cells cid with
  | some c =>
      (updateCell st cid (fun c' =>
        { c' with counter := c'.counter + 1,
                  listeners := c'.nextListenerId :: c'.listeners,
                  nextListenerId := c'.nextListenerId + 1 }),
       c.nextListenerId)
  | none => (st, 0)

/-- Invoking the capability returned by `result.subscribe`: runs `unsub()` (removes the sig
listener; idempotent at the signal level), then `if (--counter === 0)` invokes the captured
backend `unsubscribe` and deletes the token from `#signals`. There is no guard against calling
the same capability twice: every invocation decrements. -/
def unsubInvoke (st : ClientState) (cid : Nat) (lid : Nat) : ClientState :=
  match st.cells cid with
  | some c =>
      let st1 := updateCell st cid (fun c' =>
        { c' with listeners := c'.listeners.filter (fun l => l ≠ lid),
                  counter := c'.counter - 1 })
      if c.counter - 1 = 0 then
        { st1 with
            backend := st1.backend.closeSub c.subId,
            signals := fun u => if u = c.token then none else st1.signals u }
      else st1
  | none => st

/-- `result.destroy`: deletes the token from `#signals` and invokes the captured backend
`unsubscribe`, regardless of `counter`. -/
def destroyCell (st : ClientState) (cid : Nat) : ClientState :=
  match st.cells cid with
  | some c =>
      { st with
          signals := fun u => if u = c.token then none else st.signals u,
          backend := st.backend.closeSub c.subId }
  | none => st

/-- The client-facing operations that can touch a cell after creation. `syncOp` is identity on
the client state: `sync` only registers a raw sig listener and a timer (modelled by
`SyncState`) and never writes to the cell, the registry, or the backend. -/
inductive Op
  | newQuery (t : Token)
  | transition (ts : List Token)
  | refreshOp (cid : Nat)
  | subscribeOp (cid : Nat)
  | unsubOp (cid : Nat) (lid : Nat)
  | destroyOp (cid : Nat)
  | syncOp (cid : Nat)
  | setLocal (t : Token) (v : Option Value)

/-- Step the client state by one operation. -/
def step (st : ClientState) : Op → ClientState
  | .newQuery t => (querySignal st t).1
  | .transition ts => onTransition st ts
  | .refreshOp cid => refreshCell st cid
  | .subscribeOp cid => (subscribeCell st cid).1
  | .unsubOp cid lid => unsubInvoke st cid lid
  | .destroyOp cid => destroyCell st cid
  | .syncOp _ => st
  | .setLocal t v =>
      { st with backend :=
          { st.backend with localResults := fun u => if u = t then v else st.backend.localResults u } }

/-- Run a sequence of operations. -/
def runOps (st : ClientState) (ops : List Op) : ClientState := ops.foldl step st

/-- Invoke subscribe-returned capabilities in sequence (each identified by its listener id). -/
def invokeUnsubs (st : ClientState) (cid : Nat) (lids : List Nat) : ClientState :=
  lids.foldl (fun s l => unsubInvoke s cid l) st

/-! ## The `sync` promise machine

`result.sync(timeout)` returns `new Promise((resolve, reject) => ...)`: it arms a timer whose
callback runs `reject(new Error('Query timed out')); unsub?.();`, then runs
`var unsub = sig.subscribe(cb)` where `cb(value)` is
`if (this.isLoaded) { resolve(value); unsub?.(); clearTimeout(timer); }`.
The signal collaborator invokes `cb` once immediately during `subscribe`, while `unsub` is
still `undefined` (so `unsub?.()` is a no-op on that first call); `unsub` is assigned as soon
as `subscribe` returns. `SyncState` is the promise/timer/listener state of one `sync` call;
the promise settles at most once (`resolve`/`reject` on a settled promise are no-ops). -/

/-- State of one `sync` call: the settled result (if any, carrying the possibly-undefined
signal value), whether `unsub` has been assigned yet, whether the sig listener is still
registered, and whether the timer is still armed. -/
structure SyncState where
  resolvedWith : Option (Option Value)
  rejected : Bool
  unsubAssigned : Bool
  listenerActive : Bool
  timerActive : Bool
deriving DecidableEq

/-- Whether the promise of a `sync` call has settled. -/
def syncSettled (s : SyncState) : Bool := s.resolvedWith.isSome || s.rejected

/-- The `sync` sig-listener callback, invoked with the signal's current value `v` and the
cell's current `isLoaded` reading: on a loaded cell it resolves (no-op if settled), runs
`unsub?.()` (removes the listener only once `unsub` is assigned), and clears the timer. -/
def syncCallback (s : SyncState) (v : Option Value) (loaded : Bool) : SyncState :=
  if loaded then
    { s with
        resolvedWith := if syncSettled s then s.resolvedWith else some v,
        listenerActive := if s.unsubAssigned then false else s.listenerActive,
        timerActive := false }
  else s

/-- The `sync` timer callback firing: rejects with the timeout error (no-op if settled) and
runs `unsub?.()`; the timer is no longer armed after firing. -/
def syncTimerFire (s : SyncState) : SyncState :=
  if s.timerActive then
    { s with
        rejected := if syncSettled s then s.rejected else true,
        timerActive := false,
        listenerActive := if s.unsubAssigned then false else s.listenerActive }
  else s

/-- Calling `result.sync()` on a cell whose signal currently holds `v` with `isLoaded` reading
`loaded`: arms the timer, subscribes the callback (which the signal collaborator invokes once
immediately, before `unsub` is assigned), then assigns `unsub`. -/
def syncStart (v : Option Value) (loaded : Bool) : SyncState :=
  let s0 : SyncState :=
    { resolvedWith := none, rejected := false, unsubAssigned := false,
      listenerActive := true, timerActive := true }
  let s1 := syncCallback s0 v loaded
  { s1 with unsubAssigned := true }

/-- Calling `result.sync()` on the cell stored at `cid` (the cell supplies the current signal
value and `isLoaded` reading). -/
def syncCall (st : ClientState) (cid : Nat) : SyncState :=
  match st.cells cid with
  | some c => syncStart c.sigValue c.isLoadedFlag
  | none => syncStart none false

/-- Events a pending `sync` promise can observe after the call returns: a sig notification
(carrying the new value and the cell's `isLoaded` reading at that moment) or the timer
firing. -/
inductive SyncEv
  | notify (v : Option Value) (loaded : Bool)
  | timer
deriving DecidableEq

/-- Step the `sync` machine by one event. -/
def syncStep (s : SyncState) : SyncEv → SyncState
  | .notify v loaded => syncCallback s v loaded
  | .timer => syncTimerFire s

/-- Run the `sync` machine over a list of events. -/
def syncRun (s : SyncState) (evs : List SyncEv) : SyncState := evs.foldl syncStep s

/-! ## The `query` promise machine

`ConvexSignalsClient.query` calls `querySignal`, then inside `new Promise` arms a timer whose
callback only runs `reject(new Error('Query timed out'))` — it does not release anything —
and subscribes via the cell's counting `subscribe` with the callback
`if (!signal.isLoaded) return; clearTimeout(timer); resolve(value); unsub();`
where `unsub` is the ref-counting capability. -/

/-- Promise/timer state of one `query` call. -/
structure QueryPromise where
  resolvedWith : Option (Option Value)
  rejected : Bool
  timerActive : Bool
deriving DecidableEq

/-- The `query` timer callback firing: rejects with the timeout error (no-op if settled);
nothing on the client state is touched and the subscription is not released. -/
def queryTimerFire (q : QueryPromise) : QueryPromise :=
  if q.timerActive then
    { q with
        rejected := if q.resolvedWith.isSome then q.rejected else true,
        timerActive := false }
  else q

/-- The `query` listener firing on the cell at `cid`: if the cell is not loaded it returns
early; otherwise it clears the timer, resolves (no-op on a settled promise) with the cell's
current value, and invokes the ref-counting unsubscribe capability `lid`. -/
def queryCallback (st : ClientState) (q : QueryPromise) (cid lid : Nat) :
    ClientState × QueryPromise :=
  match st.cells cid with
  | some c =>
      if c.isLoadedFlag then
        (unsubInvoke st cid lid,
         { q with
             timerActive := false,
             resolvedWith :=
               if q.resolvedWith.isSome || q.rejected then q.resolvedWith else some c.sigValue })
      else (st, q)
  | none => (st, q)

/-- Calling `ConvexSignalsClient.query`: `querySignal`, then `subscribe` on the resulting cell
with the timer armed, then the signal collaborator's immediate invocation of the listener.
Returns (state, cell id, listener id, promise). (If the cell were already loaded here, the
real code's immediate callback would hit `unsub()` before the `const unsub` binding is
initialized; the claims only exercise the not-yet-loaded start, where the callback returns
early.) -/
def queryStart (st : ClientState) (t : Token) : ClientState × Nat × Nat × QueryPromise :=
  let st1 := (querySignal st t).1
  let cid := (querySignal st t).2
  let st2 := (subscribeCell st1 cid).1
  let lid := (subscribeCell st1 cid).2
  let q0 : QueryPromise := { resolvedWith := none, rejected := false, timerActive := true }
  let r := queryCallback st2 q0 cid lid
  (r.1, cid, lid, r.2)

/-! ## The `authenticated` cell

In the main client (`part_003`) the field is declared `#authenticated = signal(false)` and
`setAuth(fetcher)` only forwards to `BaseConvexClient.setAuth` with the callback
`(authenticated) => { this.#authenticated.value = authenticated; }` — it does not write the
cell itself. In the `part_001` variant the field is created empty (`this.#signal()`, i.e.
undefined) and `setAuth` first resets it to undefined. -/

/-- Events touching the `authenticated` cell: a `setAuth` call, or the backend's auth-change
callback reporting an outcome. -/
inductive AuthEv
  | setAuthEv
  | reportEv (b : Bool)
deriving DecidableEq

/-- Initial value of `#authenticated` in the main client: `signal(false)`. -/
def authInit : Option Bool := some false

/-- Effect of one event on `#authenticated` in the main client: `setAuth` leaves the cell
untouched; the backend auth callback writes the reported outcome. -/
def authStep : Option Bool → AuthEv → Option Bool
  | a, .setAuthEv => a
  | _, .reportEv b => some b

/-- Value of `#authenticated` in the main client after a sequence of events since
construction. -/
def authRun (evs : List AuthEv) : Option Bool := evs.foldl authStep authInit

/-- Initial value of `#authenticated` in the `part_001` variant: `this.#signal()`
(undefined). -/
def authInitVariant : Option Bool := none

/-- Effect of one event on `#authenticated` in the `part_001` variant: `setAuth` resets the
cell to undefined before wiring the callback; the callback writes the reported outcome. -/
def authStepVariant : Option Bool → AuthEv → Option Bool
  | _, .setAuthEv => none
  | _, .reportEv b => some b

/-! ## `queryComputed` projections

`queryComputed` wraps `computed(() => this.querySignal(query, ...fnArgsAndOptions()))` and
returns an object whose `value`/`isLoaded` getters delegate to `sig.value.value` /
`sig.value.isLoaded` — i.e. to whichever base cell the derivation currently resolves to.
After the argument function switches, the derivation re-runs `querySignal` on the new token;
the projections below read the composed cell's `value` and `isLoaded` given the current base
cell id. -/

/-- The composed cell's `value` getter: `sig.value.value` of the current base cell. -/
def composedValue (st : ClientState) (cid : Nat) : Option Value :=
  (st.cells cid).bind Cell.sigValue

/-- The composed cell's `isLoaded` getter: `sig.value.isLoaded` of the current base cell. -/
def composedLoaded (st : ClientState) (cid : Nat) : Bool :=
  ((st.cells cid).map Cell.isLoadedFlag).getD false

/-! ## Concrete demonstration states for witnesses -/

/-- A loaded cell with one live subscriber, as `querySignal` + one `subscribe` + one
transition would build it. -/
def demoCell : Cell :=
  { token := (1, 2), subId := 0, isLoadedFlag := true, sigValue := some 5,
    counter := 1, listeners := [0], nextListenerId := 1 }

/-- A client holding `demoCell` registered under its token, with its backend subscription
open and local store answering `7`. -/
def demoState : ClientState :=
  { backend := { nextSubId := 1, openSubs := [(0, (1, 2))], localResults := fun _ => some 7 },
    cells := fun k => if k = 0 then some demoCell else none,
    nextCellId := 1,
    signals := fun u => if u = (1, 2) then some 0 else none }

/-- Like `demoCell` but with two live subscribers and not yet loaded. -/
def demoCell2 : Cell :=
  { token := (1, 2), subId := 0, isLoadedFlag := false, sigValue := none,
    counter := 2, listeners := [1, 0], nextListenerId := 2 }

/-- A client holding `demoCell2` registered under its token. -/
def demoState2 : ClientState :=
  { backend := { nextSubId := 1, openSubs := [(0, (1, 2))], localResults := fun _ => some 7 },
    cells := fun k => if k = 0 then some demoCell2 else none,
    nextCellId := 1,
    signals := fun u => if u = (1, 2) then some 0 else none }

/-! ## Basic lemmas -/

theorem cells_updateCell (st : ClientState) (cid : Nat) (f : Cell → Cell) (k : Nat) :
    (updateCell st cid f).cells k = if k = cid then (st.cells k).map f else st.cells k := rfl

theorem signals_updateCell (st : ClientState) (cid : Nat) (f : Cell → Cell) :
    (updateCell st cid f).signals = st.signals := rfl

theorem backend_updateCell (st : ClientState) (cid : Nat) (f : Cell → Cell) :
    (updateCell st cid f).backend = st.backend := rfl

theorem nextCellId_updateCell (st : ClientState) (cid : Nat) (f : Cell → Cell) :
    (updateCell st cid f).nextCellId = st.nextCellId := rfl

theorem querySignal_fresh (st : ClientState) (t : Token) (hfresh : st.signals t = none) :
    querySignal st t =
      ({ st with
           backend := (st.backend.subscribeQuery t).1,
           cells := fun k => if k = st.nextCellId then
               some { token := t, subId := (st.backend.subscribeQuery t).2,
                      isLoadedFlag := false, sigValue := none, counter := 0,
                      listeners := [], nextListenerId := 0 }
             else st.cells k,
           nextCellId := st.nextCellId + 1,
           signals := fun u => if u = t then some st.nextCellId else st.signals u },
       st.nextCellId) := by
  simp [querySignal, hfresh]

theorem querySignal_hit (st : ClientState) (t : Token) (cid : Nat)
    (h : st.signals t = some cid) :
    querySignal st t =
      ({ st with
           backend := ((st.backend.subscribeQuery t).1).closeSub
             (st.backend.subscribeQuery t).2 },
       cid) := by
  simp [querySignal, h]

theorem filter_ne_of_lt (l : List (Nat × Token)) (n : Nat) (h : ∀ p ∈ l, p.1 < n) :
    l.filter (fun p => p.1 ≠ n) = l := by
  apply List.filter_eq_self.mpr
  intro p hp
  have := h p hp
  simp only [ne_eq, decide_eq_true_eq]
  omega

/-- Claim C1: two `querySignal` calls with the same (name, args) — hence the same token —
return the identical cell: the first call (on a state where the token is unregistered and has
no live backend subscription) registers a fresh cell and leaves one live backend subscription;
the second call closes its speculatively opened backend subscription immediately and returns
the registered cell, changing neither the heap nor the registry, so exactly one cell per
token and exactly one live backend subscription exist after each of the two calls. -/
theorem querySignal_dedup_shared (st : ClientState) (t : Token)
    (hfresh : st.signals t = none)
    (hcnt : subsCount st t = 0)
    (hwf : ∀ p ∈ st.backend.openSubs, p.1 < st.backend.nextSubId) :
    (querySignal (querySignal st t).1 t).2 = (querySignal st t).2 ∧
    (querySignal (querySignal st t).1 t).1.cells = (querySignal st t).1.cells ∧
    (querySignal (querySignal st t).1 t).1.signals = (querySignal st t).1.signals ∧
    (querySignal st t).1.signals t = some (querySignal st t).2 ∧
    (querySignal (querySignal st t).1 t).1.backend.openSubs
      = (querySignal st t).1.backend.openSubs ∧
    subsCount (querySignal st t).1 t = 1 ∧
    subsCount (querySignal (querySignal st t).1 t).1 t = 1 := by
  rw [querySignal_fresh st t hfresh]
  rw [querySignal_hit _ t st.nextCellId (by simp)]
  have hfil :
      (st.backend.openSubs.filter (fun p => p.1 ≠ st.backend.nextSubId + 1))
        = st.backend.openSubs := by
    apply filter_ne_of_lt
    intro p hp
    have := hwf p hp
    omega
  have hopen :
      ((((st.backend.subscribeQuery t).1).subscribeQuery t).1.closeSub
        (((st.backend.subscribeQuery t).1).subscribeQuery t).2).openSubs
        = ((st.backend.subscribeQuery t).1).openSubs := by
    simp only [Backend.subscribeQuery, Backend.closeSub]
    rw [List.filter_cons_of_neg (by simp), List.filter_cons_of_pos
      (by simp only [decide_eq_true_eq]; omega), hfil]
  refine ⟨rfl, rfl, rfl, by simp, ?_, ?_, ?_⟩
  · exact hopen
  · simp only [subsCount, Backend.subscribeQuery, List.countP_cons]
    simp only [subsCount] at hcnt
    simp [hcnt]
  · simp only [subsCount]
    rw [hopen]
    simp only [Backend.subscribeQuery, List.countP_cons]
    simp only [subsCount] at hcnt
    simp [hcnt]

/-- Witness for C1 at a concrete state. -/
theorem querySignal_dedup_shared_witness :
    (initClient (fun _ => none)).signals (1, 2) = none ∧
    subsCount (initClient (fun _ => none)) (1, 2) = 0 ∧
    (querySignal (querySignal (initClient (fun _ => none)) (1, 2)).1 (1, 2)).2
      = (querySignal (initClient (fun _ => none)) (1, 2)).2 ∧
    subsCount (querySignal (querySignal (initClient (fun _ => none)) (1, 2)).1 (1, 2)).1 (1, 2)
      = 1 := by
  refine ⟨rfl, rfl, ?_, ?_⟩
  · exact (querySignal_dedup_shared (initClient (fun _ => none)) (1, 2) rfl rfl
      (by simp [initClient])).1
  · exact (querySignal_dedup_shared (initClient (fun _ => none)) (1, 2) rfl rfl
      (by simp [initClient])).2.2.2.2.2.2

theorem notifyToken_flag (st : ClientState) (t : Token) (cid : Nat) (c : Cell)
    (h : st.cells cid = some c) :
    ∃ c', (notifyToken st t).cells cid = some c' ∧
      (c.isLoadedFlag = true → c'.isLoadedFlag = true) := by
  unfold notifyToken
  cases hs : st.signals t with
  | none => exact ⟨c, h, fun hf => hf⟩
  | some k =>
      simp only [refreshCell, cells_updateCell, backend_updateCell]
      by_cases hk : cid = k
      · subst hk
        simp [h]
      · simp [hk, h]

theorem onTransition_flag (cid : Nat) :
    ∀ (ts : List Token) (st : ClientState) (c : Cell), st.cells cid = some c →
      ∃ c', (onTransition st ts).cells cid = some c' ∧
        (c.isLoadedFlag = true → c'.isLoadedFlag = true) := by
  intro ts
  induction ts with
  | nil => exact fun st c h => ⟨c, h, fun hf => hf⟩
  | cons t ts ih =>
      intro st c h
      obtain ⟨c1, h1, hf1⟩ := notifyToken_flag st t cid c h
      obtain ⟨c2, h2, hf2⟩ := ih (notifyToken st t) c1 h1
      exact ⟨c2, h2, fun hf => hf2 (hf1 hf)⟩

theorem step_flag_preserved (st : ClientState) (op : Op) (cid : Nat) (c : Cell)
    (hlt : cid < st.nextCellId)
    (h : st.cells cid = some c)
    (hop : ∀ ts, op ≠ Op.transition ts) :
    ∃ c', (step st op).cells cid = some c' ∧ c'.isLoadedFlag = c.isLoadedFlag := by
  cases op with
  | newQuery t =>
      cases hs : st.signals t with
      | some k => exact ⟨c, by rw [step, querySignal_hit st t k hs]; exact h, rfl⟩
      | none =>
          refine ⟨c, ?_, rfl⟩
          rw [step, querySignal_fresh st t hs]
          have : cid ≠ st.nextCellId := Nat.ne_of_lt hlt
          simp [this, h]
  | transition ts => exact absurd rfl (hop ts)
  | refreshOp k =>
      simp only [step, refreshCell]
      by_cases hk : cid = k
      · subst hk
        refine ⟨{ c with sigValue := st.backend.localResults c.token }, ?_, rfl⟩
        simp [updateCell, h]
      · exact ⟨c, by simp [updateCell, hk, h], rfl⟩
  | subscribeOp k =>
      simp only [step, subscribeCell]
      cases hs : st.cells k with
      | none => exact ⟨c, h, rfl⟩
      | some ck =>
          by_cases hk : cid = k
          · subst hk
            refine ⟨{ c with counter := c.counter + 1, listeners := c.nextListenerId :: c.listeners, nextListenerId := c.nextListenerId + 1 }, ?_, rfl⟩
            simp [updateCell, h]
          · exact ⟨c, by simp [updateCell, hk, h], rfl⟩
  | unsubOp k lid =>
      simp only [step, unsubInvoke]
      cases hs : st.cells k with
      | none => exact ⟨c, h, rfl⟩
      | some ck =>
          by_cases hz : ck.counter - 1 = 0
          · simp only [hz, if_pos rfl]
            by_cases hk : cid = k
            · subst hk
              refine ⟨{ c with counter := c.counter - 1, listeners := c.listeners.filter (fun l => l ≠ lid) }, ?_, rfl⟩
              simp [updateCell, h]
            · exact ⟨c, by simp [updateCell, hk, h], rfl⟩
          · simp only [if_neg hz]
            by_cases hk : cid = k
            · subst hk
              refine ⟨{ c with counter := c.counter - 1, listeners := c.listeners.filter (fun l => l ≠ lid) }, ?_, rfl⟩
              simp [updateCell, h]
            · exact ⟨c, by simp [updateCell, hk, h], rfl⟩
  | destroyOp k =>
      simp only [step, destroyCell]
      cases hs : st.cells k with
      | none => exact ⟨c, h, rfl⟩
      | some ck => exact ⟨c, h, rfl⟩
  | syncOp k => exact ⟨c, h, rfl⟩
  | setLocal t v => exact ⟨c, h, rfl⟩

/-- Claim C2: `isLoaded` is monotonic. A freshly created cell starts with the flag false; a
step of any client operation never turns the flag from true to false; and the only operation
that can turn it from false to true is the transition-dispatcher callback (`#onTransition`).
`refresh`, `subscribe`, unsubscribe capabilities, `destroy`, `sync` and further queries all
leave the flag exactly as it was. -/
theorem isLoaded_monotone (st : ClientState) (op : Op) (cid : Nat) (c c' : Cell)
    (hlt : cid < st.nextCellId)
    (h : st.cells cid = some c)
    (h' : (step st op).cells cid = some c') :
    (c.isLoadedFlag = true → c'.isLoadedFlag = true) ∧
    (c.isLoadedFlag = false → c'.isLoadedFlag = true → ∃ ts, op = Op.transition ts) ∧
    (∀ u, st.signals u = none →
      ∃ c0, (querySignal st u).1.cells (querySignal st u).2 = some c0 ∧
        c0.isLoadedFlag = false) := by
  refine ⟨?_, ?_, ?_⟩
  · intro hf
    cases op with
    | transition ts =>
        obtain ⟨c2, h2, hf2⟩ := onTransition_flag cid ts st c h
        rw [step] at h'
        rw [h'] at h2
        obtain rfl : c' = c2 := Option.some.inj h2
        exact hf2 hf
    | newQuery t =>
        obtain ⟨c2, h2, hf2⟩ := step_flag_preserved st (Op.newQuery t) cid c hlt h
          (fun ts hts => Op.noConfusion hts)
        rw [h'] at h2
        obtain rfl : c' = c2 := Option.some.inj h2
        rw [hf2, hf]
    | refreshOp k =>
        obtain ⟨c2, h2, hf2⟩ := step_flag_preserved st (Op.refreshOp k) cid c hlt h
          (fun ts hts => Op.noConfusion hts)
        rw [h'] at h2
        obtain rfl : c' = c2 := Option.some.inj h2
        rw [hf2, hf]
    | subscribeOp k =>
        obtain ⟨c2, h2, hf2⟩ := step_flag_preserved st (Op.subscribeOp k) cid c hlt h
          (fun ts hts => Op.noConfusion hts)
        rw [h'] at h2
        obtain rfl : c' = c2 := Option.some.inj h2
        rw [hf2, hf]
    | unsubOp k lid =>
        obtain ⟨c2, h2, hf2⟩ := step_flag_preserved st (Op.unsubOp k lid) cid c hlt h
          (fun ts hts => Op.noConfusion hts)
        rw [h'] at h2
        obtain rfl : c' = c2 := Option.some.inj h2
        rw [hf2, hf]
    | destroyOp k =>
        obtain ⟨c2, h2, hf2⟩ := step_flag_preserved st (Op.destroyOp k) cid c hlt h
          (fun ts hts => Op.noConfusion hts)
        rw [h'] at h2
        obtain rfl : c' = c2 := Option.some.inj h2
        rw [hf2, hf]
    | syncOp k =>
        obtain ⟨c2, h2, hf2⟩ := step_flag_preserved st (Op.syncOp k) cid c hlt h
          (fun ts hts => Op.noConfusion hts)
        rw [h'] at h2
        obtain rfl : c' = c2 := Option.some.inj h2
        rw [hf2, hf]
    | setLocal t v =>
        obtain ⟨c2, h2, hf2⟩ := step_flag_preserved st (Op.setLocal t v) cid c hlt h
          (fun ts hts => Op.noConfusion hts)
        rw [h'] at h2
        obtain rfl : c' = c2 := Option.some.inj h2
        rw [hf2, hf]
  · intro hff hft
    by_cases hop : ∃ ts, op = Op.transition ts
    · exact hop
    · exfalso
      push_neg at hop
      obtain ⟨c2, h2, hf2⟩ := step_flag_preserved st op cid c hlt h hop
      rw [h'] at h2
      obtain rfl : c' = c2 := Option.some.inj h2
      rw [hff] at hf2
      rw [hft] at hf2
      exact Bool.noConfusion hf2
  · intro u hu
    rw [querySignal_fresh st u hu]
    refine ⟨{ token := u, subId := (st.backend.subscribeQuery u).2, isLoadedFlag := false,
              sigValue := none, counter := 0, listeners := [], nextListenerId := 0 }, ?_, rfl⟩
    simp

/-- Witness for C2 at a concrete state: a loaded cell stays loaded across a transition. -/
theorem isLoaded_monotone_witness :
    0 < demoState.nextCellId ∧
    demoState.cells 0 = some demoCell ∧
    (step demoState (Op.transition [(1, 2)])).cells 0 =
      some { token := (1, 2), subId := 0, isLoadedFlag := true, sigValue := some 7,
             counter := 1, listeners := [0], nextListenerId := 1 } ∧
    (demoCell.isLoadedFlag = true →
      ({ token := (1, 2), subId := 0, isLoadedFlag := true, sigValue := some 7,
         counter := 1, listeners := [0], nextListenerId := 1 } : Cell).isLoadedFlag = true) := by
  refine ⟨by decide, by decide, by decide, ?_⟩
  exact (isLoaded_monotone demoState (Op.transition [(1, 2)]) 0 demoCell _
    (by decide) (by decide) (by decide)).1

/-- Claim C3 (the code violates it): the capability returned by one `subscribe` call is not
idempotent. On `demoState2` — one cell with two live subscribers (capabilities 0 and 1,
`counter = 2`) — invoking capability 0 once leaves the cell alive with `counter = 1`; invoking
the very same capability a second time decrements again, reaches zero, and tears the cell
down (registry entry removed, backend subscription closed) even though subscriber 1 is still
registered on the signal. -/
theorem double_unsub_tears_down_live_cell :
    (unsubInvoke demoState2 0 0).signals (1, 2) = some 0 ∧
    subsCount (unsubInvoke demoState2 0 0) (1, 2) = 1 ∧
    ((unsubInvoke demoState2 0 0).cells 0).map Cell.counter = some 1 ∧
    (unsubInvoke (unsubInvoke demoState2 0 0) 0 0).signals (1, 2) = none ∧
    subsCount (unsubInvoke (unsubInvoke demoState2 0 0) 0 0) (1, 2) = 0 ∧
    ((unsubInvoke (unsubInvoke demoState2 0 0) 0 0).cells 0).map Cell.counter = some 0 ∧
    ((unsubInvoke (unsubInvoke demoState2 0 0) 0 0).cells 0).map Cell.listeners = some [1] := by
  decide

theorem unsub_nonfinal (st : ClientState) (cid l : Nat) (c : Cell)
    (h : st.cells cid = some c) (hne : ¬c.counter - 1 = 0) :
    unsubInvoke st cid l =
      updateCell st cid (fun c' =>
        { c' with listeners := c'.listeners.filter (fun x => x ≠ l),
                  counter := c'.counter - 1 }) := by
  simp only [unsubInvoke, h]
  rw [if_neg hne]

theorem unsub_final (st : ClientState) (cid l : Nat) (c : Cell)
    (h : st.cells cid = some c) (hz : c.counter - 1 = 0) :
    unsubInvoke st cid l =
      { updateCell st cid (fun c' =>
          { c' with listeners := c'.listeners.filter (fun x => x ≠ l),
                    counter := c'.counter - 1 }) with
        backend := st.backend.closeSub c.subId,
        signals := fun u => if u = c.token then none else st.signals u } := by
  simp only [unsubInvoke, h]
  rw [if_pos hz]
  rfl

theorem countP_filter_zero (l : List (Nat × Token)) (t : Token) (sid : Nat)
    (h : ∀ p ∈ l, p.2 = t → p.1 = sid) :
    (l.filter (fun p => p.1 ≠ sid)).countP (fun p => p.2 = t) = 0 := by
  rw [List.countP_eq_zero]
  intro p hp
  rw [List.mem_filter] at hp
  obtain ⟨hl, hd⟩ := hp
  simp only [ne_eq, decide_not, Bool.not_eq_true', decide_eq_false_iff_not] at hd
  simp only [decide_eq_true_eq]
  intro h2
  exact hd (h p hl h2)

theorem unsub_keepalive (cid : Nat) :
    ∀ (lids : List Nat) (st : ClientState) (c : Cell) (N : Nat),
      st.cells cid = some c → c.counter = (N : Int) → lids.length < N →
      ∃ c', (invokeUnsubs st cid lids).cells cid = some c' ∧
        c'.counter = (N : Int) - lids.length ∧
        c'.token = c.token ∧ c'.subId = c.subId ∧
        (invokeUnsubs st cid lids).signals = st.signals ∧
        (invokeUnsubs st cid lids).backend = st.backend := by
  intro lids
  induction lids with
  | nil =>
      intro st c N h hcnt _
      exact ⟨c, h, by simp [invokeUnsubs, hcnt], rfl, rfl, rfl, rfl⟩
  | cons l ls ih =>
      intro st c N h hcnt hlen
      have hlen' : ls.length + 1 < N := by simpa using hlen
      have hne : ¬c.counter - 1 = 0 := by rw [hcnt]; omega
      have hstep : invokeUnsubs st cid (l :: ls) = invokeUnsubs (unsubInvoke st cid l) cid ls :=
        rfl
      rw [hstep, unsub_nonfinal st cid l c h hne]
      have h1 : (updateCell st cid (fun c' =>
          { c' with listeners := c'.listeners.filter (fun x => x ≠ l),
                    counter := c'.counter - 1 })).cells cid =
          some { c with listeners := c.listeners.filter (fun x => x ≠ l),
                        counter := c.counter - 1 } := by
        simp [updateCell, h]
      obtain ⟨c', hc', hcnt', htok', hsub', hsig', hb'⟩ :=
        ih _ _ (N - 1) h1 (by simp only [hcnt]; omega) (by omega)
      refine ⟨c', hc', ?_, htok', hsub', ?_, ?_⟩
      · rw [hcnt']
        simp only [List.length_cons]
        push_cast
        omega
      · rw [hsig']; rfl
      · rw [hb']; rfl

theorem unsub_full (cid : Nat) :
    ∀ (lids : List Nat) (st : ClientState) (c : Cell) (N : Nat),
      st.cells cid = some c → c.counter = (N : Int) →
      st.signals c.token = some cid →
      (∀ p ∈ st.backend.openSubs, p.2 = c.token → p.1 = c.subId) →
      lids.length = N → 1 ≤ N →
      (invokeUnsubs st cid lids).signals c.token = none ∧
      subsCount (invokeUnsubs st cid lids) c.token = 0 ∧
      ∃ c', (invokeUnsubs st cid lids).cells cid = some c' ∧ c'.counter = 0 := by
  intro lids
  induction lids with
  | nil =>
      intro st c N _ _ _ _ hlen hN
      exact absurd hN (by simp at hlen; omega)
  | cons l ls ih =>
      intro st c N h hcnt hreg hsub hlen hN
      have hstep : invokeUnsubs st cid (l :: ls) = invokeUnsubs (unsubInvoke st cid l) cid ls :=
        rfl
      by_cases h1 : N = 1
      · subst h1
        have hls : ls = [] := by
          simp only [List.length_cons] at hlen
          exact List.eq_nil_of_length_eq_zero (by omega)
        subst hls
        have hz : c.counter - 1 = 0 := by rw [hcnt]; omega
        rw [hstep, unsub_final st cid l c h hz]
        refine ⟨by simp [invokeUnsubs], ?_, ?_⟩
        · simp only [invokeUnsubs, List.foldl_nil, subsCount, Backend.closeSub]
          exact countP_filter_zero st.backend.openSubs c.token c.subId hsub
        · refine ⟨{ c with listeners := c.listeners.filter (fun x => x ≠ l), counter := c.counter - 1 }, ?_, ?_⟩
          · simp [invokeUnsubs, updateCell, h]
          · simp [hz]
      · have hN2 : 2 ≤ N := by omega
        have hne : ¬c.counter - 1 = 0 := by rw [hcnt]; omega
        rw [hstep, unsub_nonfinal st cid l c h hne]
        have h2 : (updateCell st cid (fun c' =>
            { c' with listeners := c'.listeners.filter (fun x => x ≠ l),
                      counter := c'.counter - 1 })).cells cid =
            some { c with listeners := c.listeners.filter (fun x => x ≠ l),
                          counter := c.counter - 1 } := by
          simp [updateCell, h]
        have := ih _ _ (N - 1) h2 (by simp only [hcnt]; omega)
          (by simpa [updateCell] using hreg)
          (by simpa [updateCell] using hsub)
          (by simp only [List.length_cons] at hlen; omega) (by omega)
        simpa [updateCell, subsCount] using this

/-- Claim C4: reference counting. Starting from a registered cell with `counter = N ≥ 1` and
its single live backend subscription, invoking fewer than `N` of the returned unsubscribe
capabilities (each exactly once) leaves the cell in the registry with a positive counter and
the backend subscription still open; invoking all `N` tears the cell down: the backend
subscription is closed (the backend unsubscribe capability having been invoked exactly at the
`N`-th call, when the count reaches zero) and the token is removed from the registry. -/
theorem refcount_teardown (st : ClientState) (cid : Nat) (c : Cell) (N : Nat)
    (lids lidsN : List Nat)
    (hc : st.cells cid = some c) (hcnt : c.counter = (N : Int)) (hN : 1 ≤ N)
    (hreg : st.signals c.token = some cid)
    (hsub : ∀ p ∈ st.backend.openSubs, p.2 = c.token → p.1 = c.subId)
    (hone : subsCount st c.token = 1)
    (hk : lids.length < N) (hkN : lidsN.length = N) :
    ((invokeUnsubs st cid lids).signals c.token = some cid ∧
     subsCount (invokeUnsubs st cid lids) c.token = 1 ∧
     ∃ c', (invokeUnsubs st cid lids).cells cid = some c' ∧
       c'.counter = (N : Int) - lids.length ∧ 0 < c'.counter) ∧
    ((invokeUnsubs st cid lidsN).signals c.token = none ∧
     subsCount (invokeUnsubs st cid lidsN) c.token = 0 ∧
     ∃ c', (invokeUnsubs st cid lidsN).cells cid = some c' ∧ c'.counter = 0) := by
  constructor
  · obtain ⟨c', hc', hcnt', _, _, hsig', hb'⟩ := unsub_keepalive cid lids st c N hc hcnt hk
    refine ⟨by rw [hsig']; exact hreg, ?_, c', hc', hcnt', ?_⟩
    · simp only [subsCount] at hone ⊢
      rw [hb']
      exact hone
    · rw [hcnt']
      have : (lids.length : Int) < (N : Int) := by exact_mod_cast hk
      omega
  · exact unsub_full cid lidsN st c N hc hcnt hreg hsub hkN hN

/-- Witness for C4 on `demoState2` with `N = 2`: one invocation leaves the cell alive, two
invocations (of the two distinct capabilities) tear it down. -/
theorem refcount_teardown_witness :
    ((invokeUnsubs demoState2 0 [0]).signals (1, 2) = some 0 ∧
     subsCount (invokeUnsubs demoState2 0 [0]) (1, 2) = 1 ∧
     ∃ c', (invokeUnsubs demoState2 0 [0]).cells 0 = some c' ∧
       c'.counter = ((2 : Nat) : Int) - [(0 : Nat)].length ∧ 0 < c'.counter) ∧
    ((invokeUnsubs demoState2 0 [0, 1]).signals (1, 2) = none ∧
     subsCount (invokeUnsubs demoState2 0 [0, 1]) (1, 2) = 0 ∧
     ∃ c', (invokeUnsubs demoState2 0 [0, 1]).cells 0 = some c' ∧ c'.counter = 0) := by
  exact refcount_teardown demoState2 0 demoCell2 2 [0] [0, 1] (by decide) (by decide)
    (by decide) (by decide) (by decide) (by decide) (by decide) (by decide)

/-- Claim C5: `sync` on an already-loaded cell. The signal collaborator invokes the listener
once immediately during `subscribe` with the current value; since `isLoaded` reads true the
promise is resolved with that value at once — no transition notification is required — and
the timer is cleared. The resolution lives in the returned promise state (`sync` always wraps
in `new Promise`), never as a synchronous return value. -/
theorem sync_already_loaded (st : ClientState) (cid : Nat) (c : Cell)
    (h : st.cells cid = some c) (hl : c.isLoadedFlag = true) :
    (syncCall st cid).resolvedWith = some c.sigValue ∧
    (syncCall st cid).rejected = false ∧
    (syncCall st cid).timerActive = false := by
  simp [syncCall, h, syncStart, syncCallback, syncSettled, hl]

/-- Witness for C5 on `demoState`'s loaded cell. -/
theorem sync_already_loaded_witness :
    demoState.cells 0 = some demoCell ∧ demoCell.isLoadedFlag = true ∧
    (syncCall demoState 0).resolvedWith = some (some 5) ∧
    (syncCall demoState 0).timerActive = false := by
  refine ⟨rfl, rfl, ?_, (sync_already_loaded demoState 0 demoCell rfl rfl).2.2⟩
  exact (sync_already_loaded demoState 0 demoCell rfl rfl).1

theorem syncRun_append (s : SyncState) (l1 l2 : List SyncEv) :
    syncRun s (l1 ++ l2) = syncRun (syncRun s l1) l2 :=
  List.foldl_append syncStep s l1 l2

theorem syncRun_unloaded (evs : List SyncEv)
    (hev : ∀ e ∈ evs, ∃ u, e = SyncEv.notify u false) :
    ∀ s, syncRun s evs = s := by
  induction evs with
  | nil => intro s; rfl
  | cons e es ih =>
      intro s
      obtain ⟨u, rfl⟩ := hev e (List.mem_cons_self e es)
      have h1 : syncRun s (SyncEv.notify u false :: es) = syncRun s es := by
        show syncRun (syncStep s (SyncEv.notify u false)) es = syncRun s es
        rfl
      rw [h1]
      exact ih (fun e he => hev e (List.mem_cons_of_mem _ he)) s

theorem resolved_stable (evs : List SyncEv) :
    ∀ (s : SyncState) (w : Option Value), s.timerActive = false → s.rejected = false →
      s.resolvedWith = some w →
      (syncRun s evs).resolvedWith = some w ∧
      (syncRun s evs).timerActive = false ∧
      (syncRun s evs).rejected = false := by
  induction evs with
  | nil => exact fun s w ht hr hw => ⟨hw, ht, hr⟩
  | cons e es ih =>
      intro s w ht hr hw
      have hstep : (syncStep s e).resolvedWith = some w ∧
          (syncStep s e).timerActive = false ∧ (syncStep s e).rejected = false := by
        cases e with
        | notify v loaded =>
            by_cases hld : loaded = true

            · subst hld
              simp [syncStep, syncCallback, syncSettled, hw, hr]
            · simp only [Bool.not_eq_true] at hld
              subst hld
              simp [syncStep, syncCallback, hw, ht, hr]
        | timer => simp [syncStep, syncTimerFire, ht, hw, hr]
      have h1 : syncRun s (e :: es) = syncRun (syncStep s e) es := rfl
      rw [h1]
      exact ih (syncStep s e) w hstep.2.1 hstep.2.2 hstep.1

/-- Claim C6: the `sync` timeout race. Starting `sync` on a not-yet-loaded cell, after any
number of notifications that still observe the cell unloaded: (a) if the timer fires, the
promise is rejected with the timeout error and `unsub?.()` removes `sync`'s listener from the
signal; (b) if instead a notification observes the cell loaded first, the promise resolves
with that value and the timer is cleared, and no later event — including a stray timer event
— can fire the timeout or reject after resolution. -/
theorem sync_timeout_or_load (v w : Option Value) (evs evs2 : List SyncEv)
    (hev : ∀ e ∈ evs, ∃ u, e = SyncEv.notify u false) :
    ((syncRun (syncStart v false) (evs ++ [SyncEv.timer])).rejected = true ∧
     (syncRun (syncStart v false) (evs ++ [SyncEv.timer])).listenerActive = false) ∧
    ((syncRun (syncStart v false) (evs ++ SyncEv.notify w true :: evs2)).resolvedWith
        = some w ∧
     (syncRun (syncStart v false) (evs ++ SyncEv.notify w true :: evs2)).timerActive = false ∧
     (syncRun (syncStart v false) (evs ++ SyncEv.notify w true :: evs2)).rejected = false) := by
  have hs0 : syncStart v false =
      { resolvedWith := none, rejected := false, unsubAssigned := true, listenerActive := true, timerActive := true } := rfl
  constructor
  · rw [syncRun_append, syncRun_unloaded evs hev, hs0]
    constructor
    · rfl
    · rfl
  · rw [syncRun_append, syncRun_unloaded evs hev, hs0]
    have h1 : syncRun { resolvedWith := none, rejected := false, unsubAssigned := true, listenerActive := true, timerActive := true } (SyncEv.notify w true :: evs2)
        = syncRun { resolvedWith := some w, rejected := false, unsubAssigned := true, listenerActive := false, timerActive := false } evs2 := by
      show syncRun (syncStep _ (SyncEv.notify w true)) evs2 = _
      rfl
    rw [h1]
    exact resolved_stable evs2 _ w rfl rfl rfl

/-- Witness for C6: one unloaded notification, then either a timeout or a loading
notification followed by a stray timer event. -/
theorem sync_timeout_or_load_witness :
    ((syncRun (syncStart none false) ([SyncEv.notify none false] ++ [SyncEv.timer])).rejected
        = true ∧
     (syncRun (syncStart none false)
        ([SyncEv.notify none false] ++ [SyncEv.timer])).listenerActive = false) ∧
    ((syncRun (syncStart none false)
        ([SyncEv.notify none false] ++ SyncEv.notify (some 3) true :: [SyncEv.timer])).resolvedWith
        = some (some 3) ∧
     (syncRun (syncStart none false)
        ([SyncEv.notify none false] ++ SyncEv.notify (some 3) true :: [SyncEv.timer])).timerActive
        = false ∧
     (syncRun (syncStart none false)
        ([SyncEv.notify none false] ++ SyncEv.notify (some 3) true :: [SyncEv.timer])).rejected
        = false) := by
  exact sync_timeout_or_load none (some 3) [SyncEv.notify none false] [SyncEv.timer]
    (fun e he => ⟨none, by rw [List.mem_singleton] at he; rw [he]⟩)

/-- Claim C7: the composed cell returned by `queryComputed` delegates `value` and `isLoaded`
to whichever base cell the argument derivation currently resolves to. When the argument
function switches to a different (name, args) pair, the derivation re-runs `querySignal` on
the new token and the composed cell mirrors the new base cell exactly: if that token already
had a registered cell, the composed cell shows its value and its `isLoaded` — in particular
it keeps reporting `isLoaded = true` when the new base cell was loaded by a prior
subscriber — and it reports `isLoaded = false` only when the new base cell is created fresh
(hence has never loaded). -/
theorem queryComputed_mirror (st : ClientState) (t2 : Token) :
    (∀ c2 cc, st.signals t2 = some c2 → st.cells c2 = some cc →
      (querySignal st t2).2 = c2 ∧
      composedValue (querySignal st t2).1 (querySignal st t2).2 = cc.sigValue ∧
      composedLoaded (querySignal st t2).1 (querySignal st t2).2 = cc.isLoadedFlag ∧
      (cc.isLoadedFlag = true →
        composedLoaded (querySignal st t2).1 (querySignal st t2).2 = true)) ∧
    (st.signals t2 = none →
      ∃ c0, (querySignal st t2).1.cells (querySignal st t2).2 = some c0 ∧
        c0.isLoadedFlag = false ∧
        composedLoaded (querySignal st t2).1 (querySignal st t2).2 = false ∧
        composedValue (querySignal st t2).1 (querySignal st t2).2 = c0.sigValue) := by
  constructor
  · intro c2 cc hreg hcell
    rw [querySignal_hit st t2 c2 hreg]
    refine ⟨rfl, ?_, ?_, ?_⟩
    · simp [composedValue, hcell]
    · simp [composedLoaded, hcell]
    · intro hl
      simp [composedLoaded, hcell, hl]
  · intro hfresh
    rw [querySignal_fresh st t2 hfresh]
    refine ⟨{ token := t2, subId := (st.backend.subscribeQuery t2).2, isLoadedFlag := false,
              sigValue := none, counter := 0, listeners := [], nextListenerId := 0 },
            ?_, rfl, ?_, ?_⟩
    · simp
    · simp [composedLoaded]
    · simp [composedValue]

/-- Witness for C7 on `demoState`: switching to the already-registered, already-loaded cell
keeps `isLoaded = true`; a genuinely fresh token reports `isLoaded = false`. -/
theorem queryComputed_mirror_witness :
    demoState.signals (1, 2) = some 0 ∧ demoState.cells 0 = some demoCell ∧
    composedLoaded (querySignal demoState (1, 2)).1 (querySignal demoState (1, 2)).2 = true ∧
    demoState.signals (3, 4) = none ∧
    composedLoaded (querySignal demoState (3, 4)).1 (querySignal demoState (3, 4)).2
      = false := by
  refine ⟨rfl, rfl, ?_, by decide, ?_⟩
  · exact ((queryComputed_mirror demoState (1, 2)).1 0 demoCell rfl rfl).2.2.2 rfl
  · obtain ⟨c0, _, _, hcl, _⟩ := (queryComputed_mirror demoState (3, 4)).2 (by decide)
    exact hcl

theorem notifyToken_frame (st : ClientState) (t : Token) :
    (notifyToken st t).signals = st.signals ∧
    (notifyToken st t).nextCellId = st.nextCellId := by
  unfold notifyToken
  cases hs : st.signals t with
  | none => exact ⟨rfl, rfl⟩
  | some k => exact ⟨rfl, rfl⟩

theorem notifyToken_cells_other (st : ClientState) (t : Token) (cid : Nat)
    (h : st.signals t ≠ some cid) :
    (notifyToken st t).cells cid = st.cells cid := by
  unfold notifyToken
  cases hs : st.signals t with
  | none => rfl
  | some k =>
      have hk : k ≠ cid := fun hkeq => h (hkeq ▸ hs)
      have hck : cid ≠ k := fun hkeq => hk hkeq.symm
      simp [refreshCell, updateCell, hck]

theorem onTransition_frame (cid : Nat) :
    ∀ (ts : List Token) (st : ClientState), (∀ u, st.signals u ≠ some cid) →
      (onTransition st ts).cells cid = st.cells cid ∧
      (onTransition st ts).signals = st.signals ∧
      (onTransition st ts).nextCellId = st.nextCellId := by
  intro ts
  induction ts with
  | nil => exact fun st _ => ⟨rfl, rfl, rfl⟩
  | cons t ts ih =>
      intro st h
      have hstep : onTransition st (t :: ts) = onTransition (notifyToken st t) ts := rfl
      have hsig := (notifyToken_frame st t).1
      have hnext := (notifyToken_frame st t).2
      have h' : ∀ u, (notifyToken st t).signals u ≠ some cid := by rw [hsig]; exact h
      obtain ⟨h1, h2, h3⟩ := ih (notifyToken st t) h'
      rw [hstep]
      exact ⟨by rw [h1, notifyToken_cells_other st t cid (h t)],
             by rw [h2, hsig], by rw [h3, hnext]⟩

theorem step_not_registered (st : ClientState) (op : Op) (cid : Nat)
    (h : ∀ u, st.signals u ≠ some cid) (hlt : cid < st.nextCellId) :
    (∀ u, (step st op).signals u ≠ some cid) ∧ cid < (step st op).nextCellId := by
  cases op with
  | newQuery t =>
      cases hs : st.signals t with
      | some k => rw [step, querySignal_hit st t k hs]; exact ⟨h, hlt⟩
      | none =>
          rw [step, querySignal_fresh st t hs]
          constructor
          · intro u
            simp only
            by_cases hu : u = t
            · simp only [hu, if_pos rfl]
              intro hcontra
              have : st.nextCellId = cid := Option.some.inj hcontra
              omega
            · simp only [if_neg hu]
              exact h u
          · simp only
            omega
  | transition ts =>
      have := (onTransition_frame cid ts st h).2
      rw [step]
      exact ⟨by rw [this.1]; exact h, by rw [this.2]; exact hlt⟩
  | refreshOp k => exact ⟨h, hlt⟩
  | subscribeOp k =>
      cases hs : st.cells k with
      | none => simpa [step, subscribeCell, hs] using And.intro h hlt
      | some ck => simpa [step, subscribeCell, hs, updateCell] using And.intro h hlt
  | unsubOp k lid =>
      cases hs : st.cells k with
      | none => simpa [step, unsubInvoke, hs] using And.intro h hlt
      | some ck =>
          by_cases hz : ck.counter - 1 = 0
          · rw [step, unsub_final st k lid ck hs hz]
            constructor
            · intro u
              simp only
              by_cases hu : u = ck.token
              · simp [hu]
              · simp only [if_neg hu]
                exact h u
            · exact hlt
          · rw [step, unsub_nonfinal st k lid ck hs hz]
            exact ⟨h, hlt⟩
  | destroyOp k =>
      cases hs : st.cells k with
      | none => simpa [step, destroyCell, hs] using And.intro h hlt
      | some ck =>
          simp only [step, destroyCell, hs]
          constructor
          · intro u
            by_cases hu : u = ck.token
            · simp [hu]
            · simpa [hu] using h u
          · exact hlt
  | syncOp k => exact ⟨h, hlt⟩
  | setLocal t v => exact ⟨h, hlt⟩

theorem runOps_not_registered (cid : Nat) :
    ∀ (ops : List Op) (st : ClientState), (∀ u, st.signals u ≠ some cid) →
      cid < st.nextCellId →
      (∀ u, (runOps st ops).signals u ≠ some cid) ∧ cid < (runOps st ops).nextCellId := by
  intro ops
  induction ops with
  | nil => exact fun st h hlt => ⟨h, hlt⟩
  | cons op ops ih =>
      intro st h hlt
      obtain ⟨h1, h2⟩ := step_not_registered st op cid h hlt
      exact ih (step st op) h1 h2

/-- Claim C8: behavior after `destroy`. Destroying a cell removes its token from `#signals`
and closes its backend subscription without opening any new one (the filtered subscription
list shows the cell is not re-subscribed). A retained handle's `refresh` still works: it
writes whatever the backend's local store still answers for the cell's query into the cell's
value, and cannot throw. And after any further sequence of client operations, a transition
batch never touches the destroyed cell again: its stored state (including `isLoadedFlag` and
`sigValue`) is exactly what it was before the batch. -/
theorem destroy_frame (st : ClientState) (cid : Nat) (c : Cell)
    (hc : st.cells cid = some c)
    (hlt : cid < st.nextCellId)
    (honly : ∀ u, u ≠ c.token → st.signals u ≠ some cid) :
    ((destroyCell st cid).signals c.token = none) ∧
    ((refreshCell (destroyCell st cid) cid).cells cid =
      some { c with sigValue := st.backend.localResults c.token }) ∧
    (∀ ops ts,
      (onTransition (runOps (destroyCell st cid) ops) ts).cells cid
        = (runOps (destroyCell st cid) ops).cells cid) ∧
    ((destroyCell st cid).backend.openSubs
      = st.backend.openSubs.filter (fun p => p.1 ≠ c.subId)) := by
  have hd : destroyCell st cid =
      { st with
          signals := fun u => if u = c.token then none else st.signals u,
          backend := st.backend.closeSub c.subId } := by
    simp only [destroyCell, hc]
  refine ⟨by rw [hd]; simp, ?_, ?_, by rw [hd]; rfl⟩
  · rw [hd]
    simp [refreshCell, updateCell, hc, Backend.closeSub]
  · intro ops ts
    have hnr : ∀ u, (destroyCell st cid).signals u ≠ some cid := by
      rw [hd]
      intro u
      simp only
      by_cases hu : u = c.token
      · simp [hu]
      · simp only [if_neg hu]
        exact honly u hu
    have hlt' : cid < (destroyCell st cid).nextCellId := by rw [hd]; exact hlt
    obtain ⟨h1, _⟩ := runOps_not_registered cid ops (destroyCell st cid) hnr hlt'
    exact (onTransition_frame cid ts (runOps (destroyCell st cid) ops) h1).1

/-- Witness for C8 on `demoState`: after destroy, refresh still writes the local store's
answer, and a later transition for the cell's own token leaves the destroyed cell
untouched. -/
theorem destroy_frame_witness :
    ((destroyCell demoState 0).signals (1, 2) = none) ∧
    ((refreshCell (destroyCell demoState 0) 0).cells 0 =
      some { demoCell with sigValue := some 7 }) ∧
    ((onTransition (runOps (destroyCell demoState 0) [Op.setLocal (1, 2) (some 9)])
        [(1, 2)]).cells 0
      = (runOps (destroyCell demoState 0) [Op.setLocal (1, 2) (some 9)]).cells 0) := by
  have h := destroy_frame demoState 0 demoCell rfl (by decide)
    (fun u hu => by simp [demoState, show u ≠ (1, 2) from hu])
  exact ⟨h.1, h.2.1, h.2.2.1 [Op.setLocal (1, 2) (some 9)] [(1, 2)]⟩

/-- Claim C9 counterexample: in the main client (`part_003`) the `authenticated` cell is
created as `signal(false)`, so immediately after construction its value is `false`, not
undefined; and `setAuth` does not reset it — a cell currently reading `true` still reads
`true` right after `setAuth`, before the backend reports anything. -/
theorem auth_not_tristate_cex :
    authInit = some false ∧ authStep (some true) AuthEv.setAuthEv = some true := by
  decide

theorem authFold_no_report (evs : List AuthEv)
    (hev : ∀ e ∈ evs, ∀ b0, e ≠ AuthEv.reportEv b0) :
    ∀ a, List.foldl authStep a evs = a := by
  induction evs with
  | nil => intro a; rfl
  | cons e es ih =>
      intro a
      cases e with
      | setAuthEv =>
          exact ih (fun e he b0 => hev e (List.mem_cons_of_mem _ he) b0) a
      | reportEv b0 =>
          exact absurd rfl (hev _ (List.mem_cons_self _ es) b0)

/-- Claim C9 amended: in the main client the `authenticated` cell has type
`undefined | true | false` but is initialized to `false` and is written only by the backend's
auth-change callback — after construction and any number of `setAuth` calls (with no backend
report yet) it still reads `false`, and after the callback reports outcome `b` it reads `b`.
The original tri-state behavior (undefined after construction and after `setAuth`, until the
callback reports) is what the `part_001` variant implements. -/
theorem auth_behavior (evs : List AuthEv) (b : Bool)
    (hev : ∀ e ∈ evs, ∀ b0, e ≠ AuthEv.reportEv b0) :
    authRun evs = some false ∧
    authRun (evs ++ [AuthEv.reportEv b]) = some b ∧
    authInitVariant = none ∧
    (∀ a, authStepVariant a AuthEv.setAuthEv = none) ∧
    (∀ a b0, authStepVariant a (AuthEv.reportEv b0) = some b0) := by
  have h1 : authRun evs = some false := authFold_no_report evs hev authInit
  refine ⟨h1, ?_, rfl, fun a => rfl, fun a b0 => rfl⟩
  show List.foldl authStep authInit (evs ++ [AuthEv.reportEv b]) = some b
  rw [List.foldl_append]
  rw [show List.foldl authStep authInit evs = authRun evs from rfl, h1]
  rfl

/-- Witness for the amended C9: one `setAuth`, then a backend report of `true`. -/
theorem auth_behavior_witness :
    authRun [AuthEv.setAuthEv] = some false ∧
    authRun ([AuthEv.setAuthEv] ++ [AuthEv.reportEv true]) = some true := by
  have h := auth_behavior [AuthEv.setAuthEv] true (by decide)
  exact ⟨h.1, h.2.1⟩

/-- Claim C10 counterexample: a `query()` whose timer fires before the cell loads does not
keep its subscription forever. Concretely: fresh client, `query` on token (1,2), the timer
fires (promise rejected), then one transition loads the cell; the still-registered stale
listener runs `unsub()`, the reference count returns to zero, the token is removed from the
registry and the backend subscription is closed — contradicting "the reference count never
returns to zero on that path" and "the cell is not torn down". -/
theorem query_released_after_late_load_cex :
    (queryTimerFire (queryStart (initClient (fun _ => some 5)) (1, 2)).2.2.2).rejected
      = true ∧
    (queryCallback
        (onTransition (queryStart (initClient (fun _ => some 5)) (1, 2)).1 [(1, 2)])
        (queryTimerFire (queryStart (initClient (fun _ => some 5)) (1, 2)).2.2.2)
        (queryStart (initClient (fun _ => some 5)) (1, 2)).2.1
        (queryStart (initClient (fun _ => some 5)) (1, 2)).2.2.1).1.signals (1, 2) = none ∧
    ((queryCallback
        (onTransition (queryStart (initClient (fun _ => some 5)) (1, 2)).1 [(1, 2)])
        (queryTimerFire (queryStart (initClient (fun _ => some 5)) (1, 2)).2.2.2)
        (queryStart (initClient (fun _ => some 5)) (1, 2)).2.1
        (queryStart (initClient (fun _ => some 5)) (1, 2)).2.2.1).1.cells 0).map Cell.counter
      = some 0 ∧
    subsCount (queryCallback
        (onTransition (queryStart (initClient (fun _ => some 5)) (1, 2)).1 [(1, 2)])
        (queryTimerFire (queryStart (initClient (fun _ => some 5)) (1, 2)).2.2.2)
        (queryStart (initClient (fun _ => some 5)) (1, 2)).2.1
        (queryStart (initClient (fun _ => some 5)) (1, 2)).2.2.1).1 (1, 2) = 0 := by
  decide

theorem queryCallback_unloaded (st : ClientState) (q : QueryPromise) (cid lid : Nat)
    (c : Cell) (h : st.cells cid = some c) (hl : c.isLoadedFlag = false) :
    queryCallback st q cid lid = (st, q) := by
  simp [queryCallback, h, hl]

theorem queryCallback_loaded (st : ClientState) (q : QueryPromise) (cid lid : Nat)
    (c : Cell) (h : st.cells cid = some c) (hl : c.isLoadedFlag = true) :
    queryCallback st q cid lid =
      (unsubInvoke st cid lid,
       { q with
           timerActive := false,
           resolvedWith := if q.resolvedWith.isSome || q.rejected then q.resolvedWith
             else some c.sigValue }) := by
  simp [queryCallback, h, hl]

theorem queryStart_fresh (st : ClientState) (t : Token) (hfresh : st.signals t = none) :
    queryStart st t =
      ({ st with
           backend := (st.backend.subscribeQuery t).1,
           cells := fun k => if k = st.nextCellId
               then some { token := t, subId := (st.backend.subscribeQuery t).2, isLoadedFlag := false, sigValue := none, counter := 1, listeners := [0], nextListenerId := 1 }
               else st.cells k,
           nextCellId := st.nextCellId + 1,
           signals := fun u => if u = t then some st.nextCellId else st.signals u },
       st.nextCellId, 0,
       { resolvedWith := none, rejected := false, timerActive := true }) := by
  have hA := querySignal_fresh st t hfresh
  simp only [queryStart, hA]
  simp [subscribeCell, updateCell, queryCallback]
  funext k
  by_cases hk : k = st.nextCellId
  · simp [hk]
  · simp [hk]

/-- Claim C10 amended: for a `query()` call whose timer fires before the cell loads, the
promise rejects with the timeout error and nothing is released at rejection time — the cell
keeps the reference `query()` took (`counter` stays at 1), stays in the registry with its
single backend subscription open, and `query()`'s listener stays registered on the signal; a
later notification while the cell is still unloaded changes nothing (the callback returns
early, so the listener keeps firing). The subscription is released only if a later update
arrives once the cell is loaded: the stale callback then invokes the ref-counting unsubscribe
capability, dropping the count to zero and tearing the cell down (while the promise stays
rejected, the late `resolve` being a no-op); if the cell never loads, it is never released. -/
theorem query_timeout_leak (st st1 : ClientState) (t : Token) (cid lid : Nat)
    (q0 : QueryPromise)
    (hfresh : st.signals t = none) (hcnt : subsCount st t = 0)
    (hwf : ∀ p ∈ st.backend.openSubs, p.1 < st.backend.nextSubId)
    (hqs : queryStart st t = (st1, cid, lid, q0)) :
    (q0.rejected = false ∧ q0.resolvedWith = none ∧ q0.timerActive = true) ∧
    ((queryTimerFire q0).rejected = true ∧
     st1.signals t = some cid ∧
     subsCount st1 t = 1 ∧
     (∃ c, st1.cells cid = some c ∧ c.counter = 1 ∧ lid ∈ c.listeners ∧
        c.isLoadedFlag = false)) ∧
    (queryCallback st1 (queryTimerFire q0) cid lid = (st1, queryTimerFire q0)) ∧
    ((queryCallback (onTransition st1 [t]) (queryTimerFire q0) cid lid).1.signals t = none ∧
     subsCount (queryCallback (onTransition st1 [t]) (queryTimerFire q0) cid lid).1 t = 0 ∧
     ((queryCallback (onTransition st1 [t]) (queryTimerFire q0) cid lid).1.cells cid).map
        Cell.counter = some 0 ∧
     (queryCallback (onTransition st1 [t]) (queryTimerFire q0) cid lid).2.rejected = true ∧
     (queryCallback (onTransition st1 [t]) (queryTimerFire q0) cid lid).2.resolvedWith
        = none) := by
  rw [queryStart_fresh st t hfresh] at hqs
  simp only [Prod.mk.injEq] at hqs
  obtain ⟨hst1, hcid, hlid, hq0⟩ := hqs
  subst hst1
  subst hcid
  subst hlid
  subst hq0
  have hfil := filter_ne_of_lt st.backend.openSubs st.backend.nextSubId hwf
  have hOT : onTransition
      ({ st with
           backend := (st.backend.subscribeQuery t).1,
           cells := fun k => if k = st.nextCellId
               then some { token := t, subId := (st.backend.subscribeQuery t).2, isLoadedFlag := false, sigValue := none, counter := 1, listeners := [0], nextListenerId := 1 }
               else st.cells k,
           nextCellId := st.nextCellId + 1,
           signals := fun u => if u = t then some st.nextCellId else st.signals u } : ClientState) [t]
      = { st with
           backend := (st.backend.subscribeQuery t).1,
           cells := fun k => if k = st.nextCellId
               then some { token := t, subId := (st.backend.subscribeQuery t).2, isLoadedFlag := true, sigValue := st.backend.localResults t, counter := 1, listeners := [0], nextListenerId := 1 }
               else st.cells k,
           nextCellId := st.nextCellId + 1,
           signals := fun u => if u = t then some st.nextCellId else st.signals u } := by
    show notifyToken _ t = _
    simp [notifyToken, refreshCell, updateCell, Backend.subscribeQuery]
    funext k
    by_cases hk : k = st.nextCellId
    · simp [hk]
    · simp [hk]
  refine ⟨⟨rfl, rfl, rfl⟩, ⟨rfl, by simp, ?_, ?_⟩, ?_, ?_, ?_, ?_, ?_, ?_⟩
  · simp only [subsCount, Backend.subscribeQuery, List.countP_cons]
    simp only [subsCount] at hcnt
    simp [hcnt]
  · refine ⟨{ token := t, subId := (st.backend.subscribeQuery t).2, isLoadedFlag := false, sigValue := none, counter := 1, listeners := [0], nextListenerId := 1 }, by simp, rfl, by simp, rfl⟩
  · exact queryCallback_unloaded _ _ _ _
      { token := t, subId := (st.backend.subscribeQuery t).2, isLoadedFlag := false, sigValue := none, counter := 1, listeners := [0], nextListenerId := 1 }
      (by simp) rfl
  · rw [hOT]
    simp [queryCallback, unsubInvoke, updateCell]
  · rw [hOT, queryCallback_loaded _ _ _ _
      { token := t, subId := (st.backend.subscribeQuery t).2, isLoadedFlag := true, sigValue := st.backend.localResults t, counter := 1, listeners := [0], nextListenerId := 1 }
      (by simp) rfl]
    rw [unsub_final _ _ _
      { token := t, subId := (st.backend.subscribeQuery t).2, isLoadedFlag := true, sigValue := st.backend.localResults t, counter := 1, listeners := [0], nextListenerId := 1 }
      (by simp) (by norm_num)]
    simp only [subsCount, Backend.closeSub, Backend.subscribeQuery]
    rw [List.filter_cons_of_neg (by simp), hfil]
    simp only [subsCount] at hcnt
    simp [hcnt]
  · rw [hOT]
    simp [queryCallback, unsubInvoke, updateCell]
  · rw [hOT]
    simp [queryCallback, unsubInvoke, updateCell, queryTimerFire]
  · rw [hOT]
    simp [queryCallback, unsubInvoke, updateCell, queryTimerFire]

/-- Witness for the amended C10 at a concrete client. -/
theorem query_timeout_leak_witness :
    (queryTimerFire (queryStart (initClient (fun _ => some 5)) (1, 2)).2.2.2).rejected
      = true ∧
    (queryStart (initClient (fun _ => some 5)) (1, 2)).1.signals (1, 2)
      = some (queryStart (initClient (fun _ => some 5)) (1, 2)).2.1 ∧
    subsCount (queryStart (initClient (fun _ => some 5)) (1, 2)).1 (1, 2) = 1 := by
  have h := query_timeout_leak (initClient (fun _ => some 5))
    (queryStart (initClient (fun _ => some 5)) (1, 2)).1 (1, 2)
    (queryStart (initClient (fun _ => some 5)) (1, 2)).2.1
    (queryStart (initClient (fun _ => some 5)) (1, 2)).2.2.1
    (queryStart (initClient (fun _ => some 5)) (1, 2)).2.2.2
    rfl rfl (by simp [initClient]) rfl
  exact ⟨h.2.1.1, h.2.1.2.1, h.2.1.2.2.1⟩

end ConvexSignals
